import Mathlib

/-!
# Verification of the claude-code-hands core

Shallow embedding, in Lean 4, of the algorithmic core of the repository:

* the security-gated action dispatcher (`integration/orchestrator.py`),
* the confidence-driven decision loop (`integration/autonomous_agent.py`),
* the session recorder (`recorder/capture.py`),
* the workflow generator (`recorder/workflow_generator.py`).

Python dictionaries are modelled as insertion-ordered association lists,
floats as rationals, and side effects (recorder hooks, memory writes) as
explicit event traces.  Collaborators that live outside the core (the
security validator's pattern tables, the vision analyzer, the memory
backend, the per-action executor) are parameters of the definitions, as
the spec's §6 prescribes.
-/

/-- A Python value as it appears in action parameter dictionaries.
Strings, ints, floats (modelled as `Rat`), booleans, lists, dicts and
`None`.  Nested containers carry flat values only, which covers every
parameter payload the core builds or inspects (the security gate looks
only at top-level `str` values; the generator extracts only
`str`/`int`/`float` values). -/
inductive PyAtom where
  | str (s : String)
  | int (n : Int)
  | float (q : Rat)
  | bool (b : Bool)
  | none
deriving DecidableEq, Repr, Inhabited

/-- Top-level Python parameter values. -/
inductive PyVal where
  | str (s : String)
  | int (n : Int)
  | float (q : Rat)
  | bool (b : Bool)
  | list (l : List PyAtom)
  | dict (l : List (String × PyAtom))
  | none
deriving DecidableEq, Repr, Inhabited

/-- An ordered Python dict of parameters (`parameters` in the source). -/
abbrev Params := List (String × PyVal)

/-- `isinstance(v, str)` on a parameter value: the only test
`_validate_action` performs before invoking the validator. -/
def PyVal.isStr : PyVal → Bool
  | .str _ => true
  | _ => false

/-- Python's `needle in haystack` on strings (substring containment). -/
def strContains (haystack needle : String) : Bool :=
  (List.range (haystack.data.length + 1)).any fun i =>
    needle.data.isPrefixOf (haystack.data.drop i)

/-! ## Orchestrator (`integration/orchestrator.py`) -/

/-- `AIOrchestrator._detect_input_type`: infer the validation class from
the parameter name, by lowercase substring heuristics. -/
def detectInputType (param_name : String) : String :=
  let param_lower := param_name.toLower
  if strContains param_lower "url" || strContains param_lower "link" then "url"
  else if strContains param_lower "path" || strContains param_lower "file" then "path"
  else if strContains param_lower "command" || strContains param_lower "cmd" then "command"
  else if strContains param_lower "query" || strContains param_lower "sql" then "sql"
  else if strContains param_lower "html" || strContains param_lower "content" then "html"
  else "general"

/-- The external security validator collaborator:
`validate_input(value, input_type) -> (is_valid, reason)`. -/
abbrev Validator := String → String → Bool × Option String

/-- `AIOrchestrator._validate_action`: walk the parameter dict in order;
every `str`-valued parameter is validated under its detected input type;
the first rejection aborts with `(False, reason)`; non-string values are
skipped entirely. -/
def validateAction (validator : Validator) : Params → Bool × Option String
  | [] => (true, Option.none)
  | (param_name, PyVal.str param_value) :: rest =>
      let r := validator param_value (detectInputType param_name)
      if r.1 then
        validateAction validator rest
      else
        (false, some ("Parameter '" ++ param_name ++ "' validation failed: " ++ r.2.getD "None"))
  | _ :: rest => validateAction validator rest

/-- Result dictionary of a dispatched domain handler (`_execute_action`):
the handlers return `success`/`error` payloads and never set a
`blocked` key. -/
structure DispatchResult where
  success : Bool
  error : Option String := Option.none
deriving DecidableEq, Repr

/-- Result dictionary of `execute_secure_action`; `blocked` defaults to
absent/false. -/
structure OrchResult where
  success : Bool
  error : Option String := Option.none
  blocked : Bool := false
deriving DecidableEq, Repr

/-- Observable side effects of one `execute_secure_action` call, in
order: the recorder mark-start hook, the dispatch to a domain handler,
the recorder capture hook, and the best-effort memory write. -/
inductive OrchEvent where
  | markStart (action_type tool_name : String)
  | dispatch (action_type tool_name : String) (parameters : Params)
  | capture (action_type tool_name : String) (parameters : Params)
      (success : Bool) (error : Option String)
  | memStore (action_type tool_name : String) (parameters : Params)
deriving DecidableEq, Repr

/-- Orchestrator configuration: which lazy components resolved, whether a
recording is active, and the dispatch collaborator (`_execute_action`'s
routing to the vision/memory/browser/hands handlers, which live outside
the core). -/
structure Orchestrator where
  security : Option Validator
  recorderAvailable : Bool
  is_recording : Bool
  memoryAvailable : Bool
  execute : String → String → Params → DispatchResult

/-- Steps 2–5 of `execute_secure_action` (everything after the security
gate): mark-start, dispatch, capture, best-effort memory store. -/
def runAction (o : Orchestrator) (action_type tool_name : String)
    (parameters : Params) : OrchResult × List OrchEvent :=
  let pre := if o.recorderAvailable && o.is_recording then
      [OrchEvent.markStart action_type tool_name] else []
  let d := o.execute action_type tool_name parameters
  let result : OrchResult := { success := d.success, error := d.error, blocked := false }
  let cap := if o.recorderAvailable && o.is_recording then
      [OrchEvent.capture action_type tool_name parameters result.success result.error] else []
  let mem := if o.memoryAvailable && result.success then
      [OrchEvent.memStore action_type tool_name parameters] else []
  (result, pre ++ [OrchEvent.dispatch action_type tool_name parameters] ++ cap ++ mem)

/-- `AIOrchestrator.execute_secure_action`: the security gate runs first
(when the validator component is available); a rejection returns the
blocked result before any hook, dispatch, or memory write happens. -/
def executeSecureAction (o : Orchestrator) (action_type tool_name : String)
    (parameters : Params) : OrchResult × List OrchEvent :=
  match o.security with
  | some validator =>
      let v := validateAction validator parameters
      if v.1 then
        runAction o action_type tool_name parameters
      else
        ({ success := false,
           error := some ("Security validation failed: " ++ v.2.getD "None"),
           blocked := true }, [])
  | Option.none => runAction o action_type tool_name parameters

/-! ## Agent (`integration/autonomous_agent.py`) -/

/-- One action specification as the agent builds it:
`{'action_type': ..., 'tool_name': ..., 'parameters': ...}`. -/
structure ActionSpec where
  action_type : String
  tool_name : String
  parameters : Params
deriving DecidableEq, Repr

/-- One recommended action inside a vision analysis
(`analysis['recommended_actions']`); the agent reads it with
`.get('type','browser')`, `.get('tool','click')`, `.get('parameters',{})`. -/
structure RecAction where
  type : Option String
  tool : Option String
  parameters : Option Params
deriving DecidableEq, Repr

/-- A vision analysis result, as `_decide_action` reads it:
`analysis.get('confidence', 0.5)` and `analysis.get('recommended_actions', [])`. -/
structure Analysis where
  confidence : Option Rat
  recommended_actions : Option (List RecAction)
deriving DecidableEq, Repr

/-- One recalled memory/experience, as `_decide_action` reads it:
`exp.get('success', False)` and `memory.get('id')`. -/
structure Experience where
  success : Option Bool
  id : PyVal
deriving DecidableEq, Repr

/-- `AutonomousAgent._extract_actions_from_memory`: the PROVEN strategy
replays the successful experience through a single
`memory.replay_workflow` action. -/
def extractActionsFromMemory (memory : Experience) : List ActionSpec :=
  [{ action_type := "memory", tool_name := "replay_workflow",
     parameters := [("memory_id", memory.id)] }]

/-- `AutonomousAgent._generate_actions_from_analysis`: one action per
entry of the analysis' recommended-action list. -/
def generateActionsFromAnalysis (analysis : Analysis) : List ActionSpec :=
  (analysis.recommended_actions.getD []).map fun action =>
    { action_type := action.type.getD "browser",
      tool_name := action.tool.getD "click",
      parameters := action.parameters.getD [] }

/-- `AutonomousAgent._generate_cautious_actions`: a single conservative
re-analysis action. -/
def generateCautiousActions (_analysis : Analysis) : List ActionSpec :=
  [{ action_type := "vision", tool_name := "analyze_screen",
     parameters :=
       [("prompt", PyVal.str "Provide detailed analysis of all interactive elements")] }]

/-- `AutonomousAgent._generate_fallback_actions`: a broadened memory
search for alternative approaches. -/
def generateFallbackActions (goal : String) : List ActionSpec :=
  [{ action_type := "memory", tool_name := "search",
     parameters := [("query", PyVal.str ("alternative approaches for " ++ goal)),
                    ("limit", PyVal.int 3)] }]

/-- The action plan built by one DECIDE step. -/
structure ActionPlan where
  goal : String
  confidence : Rat
  strategy : Option String
  actions : List ActionSpec
  fallback_actions : List ActionSpec
deriving DecidableEq, Repr

/-- `AutonomousAgent._decide_action`: the three-way strategy selection.
`confidence >= threshold and successful_experiences` chooses PROVEN with
the first successful recalled experience; `confidence >= threshold`
alone chooses EXPLORATORY from the analysis; otherwise CAUTIOUS with a
fallback memory search. -/
def decideAction (confidence_threshold : Rat) (goal : String) (analysis : Analysis)
    (similar_experiences : List Experience) : ActionPlan :=
  let confidence := analysis.confidence.getD (mkRat 1 2)
  let successful_experiences :=
    similar_experiences.filter fun exp => exp.success.getD false
  if confidence ≥ confidence_threshold then
    match successful_experiences with
    | e :: _ =>
        { goal := goal, confidence := confidence, strategy := some "proven",
          actions := extractActionsFromMemory e, fallback_actions := [] }
    | [] =>
        { goal := goal, confidence := confidence, strategy := some "exploratory",
          actions := generateActionsFromAnalysis analysis, fallback_actions := [] }
  else
    { goal := goal, confidence := confidence, strategy := some "cautious",
      actions := generateCautiousActions analysis,
      fallback_actions := generateFallbackActions goal }

/-- `AutonomousAgent._execute_fallback`: run the fallback actions in
order and return the first successful result; if none succeeds, report
the all-failed error.  `exec` abstracts the
`orchestrator.execute_secure_action` collaborator call. -/
def executeFallback (exec : ActionSpec → OrchResult) : List ActionSpec → OrchResult
  | [] => { success := false, error := some "All fallback actions failed" }
  | action :: rest =>
      let result := exec action
      if result.success then result else executeFallback exec rest

/-- The loop body of `AutonomousAgent._execute_action_plan`: run primary
actions in order, accumulating results; at the first failure, run the
fallback actions when present (appending their single outcome) and stop. -/
def executePlanActions (exec : ActionSpec → OrchResult)
    (fallback_actions : List ActionSpec) : List ActionSpec → Bool × List OrchResult
  | [] => (true, [])
  | action :: rest =>
      let result := exec action
      if result.success then
        let tail := executePlanActions exec fallback_actions rest
        (tail.1, result :: tail.2)
      else if fallback_actions.isEmpty then
        (false, [result])
      else
        (false, [result, executeFallback exec fallback_actions])

/-- Result of `_execute_action_plan`. -/
structure PlanExecResult where
  success : Bool
  strategy : Option String
  results : List OrchResult
deriving DecidableEq, Repr

/-- `AutonomousAgent._execute_action_plan`. -/
def executeActionPlan (exec : ActionSpec → OrchResult) (action_plan : ActionPlan) :
    PlanExecResult :=
  let r := executePlanActions exec action_plan.fallback_actions action_plan.actions
  { success := r.1, strategy := action_plan.strategy, results := r.2 }

/-- The per-cycle result record of `analyze_and_act`, as
`_check_goal_achievement` reads it: `result.get('success', False)` and
`result.get('confidence', 0)`. -/
structure CycleResult where
  success : Bool
  confidence : Option Rat
deriving DecidableEq, Repr

/-- `AutonomousAgent._check_goal_achievement`:
`result.get('success', False) and result.get('confidence', 0) > 0.8`. -/
def checkGoalAchievement (result : CycleResult) : Bool :=
  result.success && decide (result.confidence.getD 0 > mkRat 4 5)

/-- The record returned by `execute_goal_autonomously`. -/
structure GoalResult where
  success : Bool
  iterations : Nat
  history : List CycleResult
deriving DecidableEq, Repr

/-- The `while iteration < max_iterations and not goal_achieved` loop of
`execute_goal_autonomously`.  `cycle k` abstracts the `analyze_and_act`
collaborator call of iteration `k` (the source's `analyze_and_act`
catches every exception and returns an error record, so the cycle is a
total function). -/
def executeGoalLoop (cycle : Nat → CycleResult) (max_iterations : Nat)
    (iteration : Nat) (history : List CycleResult) : GoalResult :=
  if iteration < max_iterations then
    let it := iteration + 1
    let result := cycle it
    let history := history ++ [result]
    if checkGoalAchievement result then
      { success := true, iterations := it, history := history }
    else
      executeGoalLoop cycle max_iterations it history
  else
    { success := false, iterations := iteration, history := history }
termination_by max_iterations - iteration

/-- `AutonomousAgent.execute_goal_autonomously(goal, max_iterations)`. -/
def executeGoalAutonomously (cycle : Nat → CycleResult) (max_iterations : Nat) :
    GoalResult :=
  executeGoalLoop cycle max_iterations 0 []

/-! ## Recorder (`recorder/capture.py`)

Wall-clock reads (`time.time()`) are threaded in as explicit `now`
arguments; the persisted JSON documents are modelled structurally (for
JSON-serializable payloads, `json.dump`/`json.load` round-trips the
dictionary unchanged), keyed by session id with newer writes shadowing
older ones, exactly as writing `{session_id}.json` does. -/

/-- `CapturedAction` dataclass. -/
structure CapturedAction where
  timestamp : Rat
  action_type : String
  tool_name : String
  parameters : Params
  result : Option Params
  screenshot_path : Option String
  duration_ms : Option Rat
  success : Bool
  error : Option String
deriving DecidableEq, Repr

/-- `RecordingSession` dataclass. -/
structure RecordingSession where
  session_id : String
  name : String
  started_at : Rat
  ended_at : Option Rat
  actions : List CapturedAction
  metadata : Params
deriving DecidableEq, Repr

/-- The per-session JSON document `_save_session` writes. -/
structure SessionDoc where
  session_id : String
  name : String
  started_at : Rat
  ended_at : Option Rat
  duration_seconds : Option Rat
  action_count : Nat
  metadata : Params
  actions : List CapturedAction
deriving DecidableEq, Repr

/-- `WorkflowCapture` state: the recording flag, the single optional
active session, the `action_start_times` timing dict, the screenshot
switch, and the persisted session store. -/
structure WorkflowCapture where
  is_recording : Bool
  current_session : Option RecordingSession
  action_start_times : List (String × Rat)
  capture_screenshots : Bool
  storage : List (String × SessionDoc)
deriving DecidableEq, Repr

/-- `WorkflowCapture._save_session`: serialize the full session as one
document keyed by its id (a newer write to the same id shadows the
older file). -/
def saveSession (session : RecordingSession) (storage : List (String × SessionDoc)) :
    List (String × SessionDoc) :=
  (session.session_id,
   { session_id := session.session_id,
     name := session.name,
     started_at := session.started_at,
     ended_at := session.ended_at,
     duration_seconds := session.ended_at.map (fun e => e - session.started_at),
     action_count := session.actions.length,
     metadata := session.metadata,
     actions := session.actions }) :: storage

/-- `WorkflowCapture.stop_recording`: seal `ended_at`, persist the full
session document, clear the active handle, and return the sealed id (or
`None` when nothing is active). -/
def stopRecording (now : Rat) (w : WorkflowCapture) : Option String × WorkflowCapture :=
  match w.current_session with
  | Option.none => (Option.none, w)
  | some session =>
      if w.is_recording then
        let sealed := { session with ended_at := some now }
        (some session.session_id,
         { w with is_recording := false,
                  current_session := Option.none,
                  storage := saveSession sealed w.storage })
      else
        (Option.none, w)

/-- Session-id derivation in `start_recording`:
`f"session_{int(time.time())}_{name.replace(' ', '_')}"`. -/
def mkSessionId (now : Rat) (name : String) : String :=
  "session_" ++ toString now.floor ++ "_" ++ name.replace " " "_"

/-- `WorkflowCapture.start_recording`: an already-active session is first
stopped (finalized and persisted), then a fresh session is created. -/
def startRecording (now : Rat) (name : String) (metadata : Params)
    (w : WorkflowCapture) : String × WorkflowCapture :=
  let w := if w.is_recording then (stopRecording now w).2 else w
  let session_id := mkSessionId now name
  (session_id,
   { w with is_recording := true,
            current_session := some
              { session_id := session_id, name := name, started_at := now,
                ended_at := Option.none, actions := [], metadata := metadata } })

/-- `WorkflowCapture.mark_action_start`: record the start time under the
key `f"{action_type}:{tool_name}"` (a dict write replaces any previous
entry for the key). -/
def markActionStart (now : Rat) (action_type tool_name : String)
    (w : WorkflowCapture) : WorkflowCapture :=
  let action_key := action_type ++ ":" ++ tool_name
  { w with action_start_times :=
      (action_key, now) :: w.action_start_times.filter fun p => p.1 ≠ action_key }

/-- The inputs of one `capture_action` call. -/
structure CaptureReq where
  now : Rat
  action_type : String
  tool_name : String
  parameters : Params
  result : Option Params
  success : Bool
  error : Option String
deriving DecidableEq, Repr

/-- Screenshot-path slot reserved by `_capture_screenshot`
(`{session_id}_{action_type}_{tool_name}_{timestamp_ms}.png`; the pixels
are produced by a collaborator, never by this core). -/
def screenshotName (session_id : String) (req : CaptureReq) : String :=
  session_id ++ "_" ++ req.action_type ++ "_" ++ req.tool_name ++ "_"
    ++ toString (req.now * 1000).floor ++ ".png"

/-- `WorkflowCapture.capture_action`: a no-op when nothing is active;
otherwise append a new action with the current timestamp, a duration
consumed from the matching `mark_action_start` entry, and (for
vision/browser/hands actions with screenshots enabled) a reserved
screenshot-path slot. -/
def captureAction (req : CaptureReq) (w : WorkflowCapture) :
    Option String × WorkflowCapture :=
  match w.current_session with
  | Option.none => (Option.none, w)
  | some session =>
      if w.is_recording then
        let action_key := req.action_type ++ ":" ++ req.tool_name
        let duration_ms := (w.action_start_times.lookup action_key).map
          fun t0 => (req.now - t0) * 1000
        let start_times := w.action_start_times.filter fun p => p.1 ≠ action_key
        let screenshot_path :=
          if w.capture_screenshots &&
             (req.action_type == "vision" || req.action_type == "browser" ||
              req.action_type == "hands") then
            some (screenshotName session.session_id req)
          else Option.none
        let action : CapturedAction :=
          { timestamp := req.now, action_type := req.action_type,
            tool_name := req.tool_name, parameters := req.parameters,
            result := req.result, screenshot_path := screenshot_path,
            duration_ms := duration_ms, success := req.success, error := req.error }
        let session := { session with actions := session.actions ++ [action] }
        (some ("action_" ++ toString session.actions.length),
         { w with current_session := some session, action_start_times := start_times })
      else
        (Option.none, w)

/-- `WorkflowCapture.load_session`: look the document up by id and
reconstruct the session from it ("not found" and a deserialization
error both resolve to `None`; in this structural model deserialization
cannot fail). -/
def loadSession (session_id : String) (w : WorkflowCapture) :
    Option RecordingSession :=
  match w.storage.lookup session_id with
  | Option.none => Option.none
  | some doc => some
      { session_id := doc.session_id, name := doc.name,
        started_at := doc.started_at, ended_at := doc.ended_at,
        actions := doc.actions, metadata := doc.metadata }

/-- Fold a list of `capture_action` calls over the recorder state. -/
def runCaptures (reqs : List CaptureReq) (w : WorkflowCapture) : WorkflowCapture :=
  reqs.foldl (fun w r => (captureAction r w).2) w

/-! ## Generator (`recorder/workflow_generator.py`)

`_extract_variables` picks the most common value of a group with
`max(set(values), key=values.count)`.  CPython's `set` iterates in an
unspecified, hash-dependent order (randomized between processes for
strings), so the embedding takes the set enumeration as an explicit
parameter `pySet`; an admissible enumeration lists exactly the distinct
observed values, each once, in some order.  Python's `max` keeps the
first maximal element of the iteration. -/

/-- `type(v).__name__`. -/
def pyTypeName : PyVal → String
  | .str _ => "str"
  | .int _ => "int"
  | .float _ => "float"
  | .bool _ => "bool"
  | .list _ => "list"
  | .dict _ => "dict"
  | .none => "NoneType"

/-- `isinstance(v, (str, int, float))` — note that Python `bool` is a
subclass of `int`, so boolean values pass this test too. -/
def PyVal.isStrOrNum : PyVal → Bool
  | .str _ => true
  | .int _ => true
  | .float _ => true
  | .bool _ => true
  | _ => false

/-- Append an observation to an insertion-ordered dict of
`key -> value list` (the `value_counts` dict). -/
def addObservation (m : List (String × List PyVal)) (key : String) (v : PyVal) :
    List (String × List PyVal) :=
  match m with
  | [] => [(key, [v])]
  | (k, vs) :: rest =>
      if k = key then (k, vs ++ [v]) :: rest
      else (k, vs) :: addObservation rest key v

/-- The `value_counts` dict of `_extract_variables`: for every action and
every string/numeric parameter, the observed value is appended under the
key `f"{action_type}_{tool_name}_{param_name}"`, in traversal order. -/
def valueCounts (actions : List CapturedAction) : List (String × List PyVal) :=
  actions.foldl
    (fun m action =>
      action.parameters.foldl
        (fun m p =>
          if p.2.isStrOrNum then
            addObservation m (action.action_type ++ "_" ++ action.tool_name ++ "_" ++ p.1) p.2
          else m)
        m)
    []

/-- Python's `max(l, key=count)`: the first element of the iteration
whose key is maximal (later elements replace the current best only when
strictly greater); `None` on an empty iterable (where Python raises). -/
def pyMax (key : PyVal → Nat) : List PyVal → Option PyVal
  | [] => Option.none
  | v :: rest => some (rest.foldl (fun best x => if key x > key best then x else best) v)

/-- A variable definition `{'value': ..., 'description': ..., 'type': ...}`. -/
structure VarDef where
  value : PyVal
  description : String
  type : String
deriving DecidableEq, Repr

/-- An admissible model of CPython `set(values)`: the distinct observed
values, each exactly once, in some order. -/
def validSetEnum (values enum : List PyVal) : Prop :=
  enum.Nodup ∧ ∀ v, v ∈ enum ↔ v ∈ values

/-- One iteration of the `for key, values in value_counts.items()` loop
of `_extract_variables`: a group with more than one observation emits
one variable `var_{n}` bound to `max(set(values), key=values.count)` and
bumps the counter (`pyMax` returns `None` only on an empty enumeration,
where Python's `max` would raise; that branch is unreachable for an
admissible `pySet` because a group with two observations is
nonempty). -/
def extractVarStep (pySet : List PyVal → List PyVal)
    (acc : List (String × VarDef) × Nat) (kv : String × List PyVal) :
    List (String × VarDef) × Nat :=
  if kv.2.length > 1 then
    match pyMax (fun v => kv.2.count v) (pySet kv.2) with
    | some most_common =>
        (acc.1 ++ [("var_" ++ toString acc.2,
          { value := most_common,
            description := "Extracted from " ++ kv.1,
            type := pyTypeName most_common })], acc.2 + 1)
    | Option.none => acc
  else acc

/-- `WorkflowGenerator._extract_variables`, with the set enumeration
`pySet` explicit. -/
def extractVariables (pySet : List PyVal → List PyVal)
    (actions : List CapturedAction) : List (String × VarDef) :=
  ((valueCounts actions).foldl (extractVarStep pySet) ([], 1)).1

/-- `WorkflowGenerator._substitute_variables`: each parameter whose value
equals some variable's bound value is rewritten to a reference
`${var_name}` to the first such variable (the inner loop breaks at the
first match); other parameters pass through unchanged. -/
def substituteVariables (parameters : Params) (varList : List (String × VarDef)) :
    Params :=
  parameters.map fun p =>
    match varList.find? (fun v => p.2 == v.2.value) with
    | some v => (p.1, PyVal.str ("$\x7b" ++ v.1 ++ "\x7d"))
    | Option.none => p

/-- `WorkflowGenerator._simplify_result`: keep only the essential fields,
in the essential-field order. -/
def simplifyResult (result : Params) : Params :=
  ["status", "success", "element_count", "found", "visible"].filterMap
    fun f => (result.lookup f).map fun v => (f, v)

/-- A workflow step: either an action step (one per captured action) or
a loop step created by loop folding. -/
inductive WFStep where
  | act (step : Nat) (action : String) (parameters : Params)
      (expected_result : Option Params) (on_error : Option String)
      (timeout : Option Int)
  | loop (step : Nat) (iterations : Nat) (steps : List WFStep)

instance : Inhabited WFStep := ⟨WFStep.loop 0 0 []⟩

/-- The `'action'` key of a step dict (loop steps carry `'loop'`). -/
def stepActionId : WFStep → String
  | .act _ action _ _ _ _ => action
  | .loop _ _ _ => "loop"

/-- `step.get('parameters')`: present on action steps, absent on loop
steps. -/
def stepParams : WFStep → Option Params
  | .act _ _ parameters _ _ _ => some parameters
  | .loop _ _ _ => Option.none

/-- `step.get('on_error')`. -/
def stepOnError : WFStep → Option String
  | .act _ _ _ _ on_error _ => on_error
  | .loop _ _ _ => Option.none

/-- `step.get('iterations')`. -/
def stepIterations : WFStep → Option Nat
  | .act _ _ _ _ _ _ => Option.none
  | .loop _ iterations _ => some iterations

/-- The nested `steps` list of a loop step. -/
def stepSubSteps : WFStep → List WFStep
  | .act _ _ _ _ _ _ => []
  | .loop _ _ steps => steps

/-- `WorkflowGenerator._convert_actions_to_steps`: one step per action in
original order (`enumerate(actions, 1)`), parameters pass through
substitution, truthy results are simplified into `expected_result`,
failed actions get `on_error='continue'`, and durations above one second
produce a `timeout` of 1.5× the observed duration (`int` truncation). -/
def convertActionsToSteps (actions : List CapturedAction)
    (varList : List (String × VarDef)) : List WFStep :=
  (List.enumFrom 1 actions).map fun ia =>
    WFStep.act ia.1 (ia.2.action_type ++ "." ++ ia.2.tool_name)
      (substituteVariables ia.2.parameters varList)
      (match ia.2.result with
       | some r => if r.isEmpty then Option.none else some (simplifyResult r)
       | Option.none => Option.none)
      (if ia.2.success then Option.none else some "continue")
      (match ia.2.duration_ms with
       | some d => if d > 1000 then some (d * mkRat 3 2).floor else Option.none
       | Option.none => Option.none)

/-- `WorkflowGenerator._is_pattern_repeating`: the block of
`pattern_length` steps at `start_idx` repeats immediately after itself,
comparing action identifiers only. -/
def isPatternRepeating (steps : List WFStep) (start_idx pattern_length : Nat) : Bool :=
  if start_idx + pattern_length * 2 > steps.length then false
  else
    let pattern := (steps.drop start_idx).take pattern_length
    let next_sequence := (steps.drop (start_idx + pattern_length)).take pattern_length
    (pattern.zip next_sequence).all fun pn => stepActionId pn.1 == stepActionId pn.2

/-- The `for pattern_length in range(1, max_pattern_length + 1)` scan of
`_find_pattern_length`. -/
def findPatternLengthAux (steps : List WFStep) (start_idx : Nat) :
    Nat → Nat → Nat
  | _, 0 => 1
  | l, fuel + 1 =>
      if isPatternRepeating steps start_idx l then l
      else findPatternLengthAux steps start_idx (l + 1) fuel

/-- `WorkflowGenerator._find_pattern_length`: the shortest repeating
pattern length in `1..min(10, (len - start_idx) / 2)`, or 1 when none
repeats. -/
def findPatternLength (steps : List WFStep) (start_idx : Nat) : Nat :=
  let max_pattern_length := min 10 ((steps.length - start_idx) / 2)
  findPatternLengthAux steps start_idx 1 max_pattern_length

/-- The `while idx + pattern_length <= len(steps)` loop of
`_count_pattern_repeats`; the fuel bounds the iteration count (each
step advances `idx` by `pattern_length ≥ 1`, so `len(steps) + 1` fuel
is never exhausted on the inputs the generator produces). -/
def countRepeatsAux (steps : List WFStep) (pattern_length : Nat) :
    Nat → Nat → Nat → Nat
  | 0, _, count => count
  | fuel + 1, idx, count =>
      if idx + pattern_length ≤ steps.length &&
         isPatternRepeating steps idx pattern_length then
        countRepeatsAux steps pattern_length fuel (idx + pattern_length) (count + 1)
      else count

/-- `WorkflowGenerator._count_pattern_repeats`: starting at `start_idx`,
advance block-by-block while `_is_pattern_repeating` holds, counting one
per advance, and return at least 1. -/
def countPatternRepeats (steps : List WFStep) (start_idx pattern_length : Nat) : Nat :=
  max (countRepeatsAux steps pattern_length (steps.length + 1) start_idx 0) 1

/-- The `while i < len(steps)` loop of `_detect_and_optimize_loops`:
patterns of length greater than 1 are folded into a loop step holding
the first block and the counted repeats; otherwise the step passes
through unchanged. -/
def detectLoopsAux (steps : List WFStep) :
    Nat → Nat → List WFStep → List WFStep
  | 0, _, optimized => optimized
  | fuel + 1, i, optimized =>
      if i < steps.length then
        let pattern_length := findPatternLength steps i
        if pattern_length > 1 then
          let pattern_steps := (steps.drop i).take pattern_length
          let repeat_count := countPatternRepeats steps i pattern_length
          let loop_step := WFStep.loop (optimized.length + 1) repeat_count pattern_steps
          detectLoopsAux steps fuel (i + pattern_length * repeat_count)
            (optimized ++ [loop_step])
        else
          detectLoopsAux steps fuel (i + 1) (optimized ++ [steps.getD i default])
      else optimized

/-- `WorkflowGenerator._detect_and_optimize_loops`. -/
def detectAndOptimizeLoops (steps : List WFStep) : List WFStep :=
  detectLoopsAux steps (steps.length + 1) 0 []

/-- `WorkflowGenerator._is_redundant`: same action identifier and same
parameters (`None == None` for two loop steps). -/
def isRedundant (step1 step2 : WFStep) : Bool :=
  stepActionId step1 == stepActionId step2 &&
  decide (stepParams step1 = stepParams step2)

/-- `WorkflowGenerator._can_merge`: merging is disabled in the source
("For now, don't merge"). -/
def canMerge (_step1 _step2 : WFStep) : Bool := false

/-- `WorkflowGenerator._merge_steps` (dead code while `_can_merge` is
constant false). -/
def mergeSteps (step1 _step2 : WFStep) : WFStep := step1

/-- The loop body of `_optimize_steps`: drop a step that is redundant
with the retained predecessor, merge when allowed (never), otherwise
keep it. -/
def optimizeStepsAux (prev : Option WFStep) (optimized : List WFStep) :
    List WFStep → List WFStep
  | [] => optimized
  | step :: rest =>
      match prev with
      | some p =>
          if isRedundant p step then optimizeStepsAux (some p) optimized rest
          else if canMerge p step then
            let merged := mergeSteps p step
            optimizeStepsAux (some merged) (optimized.dropLast ++ [merged]) rest
          else optimizeStepsAux (some step) (optimized ++ [step]) rest
      | Option.none => optimizeStepsAux (some step) (optimized ++ [step]) rest

/-- `WorkflowGenerator._optimize_steps`: adjacency-only deduplication. -/
def optimizeSteps (steps : List WFStep) : List WFStep :=
  optimizeStepsAux Option.none [] steps

/-- The steps pipeline of `WorkflowGenerator.generate_workflow` with the
default configuration (`extract_variables`, `detect_loops` and
`optimize` all enabled): extract variables, convert actions to steps,
fold loops, deduplicate. -/
def generateWorkflowSteps (pySet : List PyVal → List PyVal)
    (actions : List CapturedAction) : List (String × VarDef) × List WFStep :=
  let varList := extractVariables pySet actions
  let steps := convertActionsToSteps actions varList
  let steps := detectAndOptimizeLoops steps
  let steps := optimizeSteps steps
  (varList, steps)

/-! ## Helper lemmas -/

theorem decideAction_proven (confidence_threshold : Rat) (goal : String)
    (analysis : Analysis) (similar_experiences : List Experience)
    (e : Experience) (rest : List Experience)
    (hge : analysis.confidence.getD (mkRat 1 2) ≥ confidence_threshold)
    (hsucc : similar_experiences.filter (fun exp => exp.success.getD false) = e :: rest) :
    decideAction confidence_threshold goal analysis similar_experiences =
      { goal := goal, confidence := analysis.confidence.getD (mkRat 1 2),
        strategy := some "proven", actions := extractActionsFromMemory e,
        fallback_actions := [] } := by
  unfold decideAction
  simp only [hsucc, if_pos hge]

theorem decideAction_exploratory (confidence_threshold : Rat) (goal : String)
    (analysis : Analysis) (similar_experiences : List Experience)
    (hge : analysis.confidence.getD (mkRat 1 2) ≥ confidence_threshold)
    (hsucc : similar_experiences.filter (fun exp => exp.success.getD false) = []) :
    decideAction confidence_threshold goal analysis similar_experiences =
      { goal := goal, confidence := analysis.confidence.getD (mkRat 1 2),
        strategy := some "exploratory",
        actions := generateActionsFromAnalysis analysis,
        fallback_actions := [] } := by
  unfold decideAction
  simp only [hsucc, if_pos hge]

theorem decideAction_cautious (confidence_threshold : Rat) (goal : String)
    (analysis : Analysis) (similar_experiences : List Experience)
    (hlt : analysis.confidence.getD (mkRat 1 2) < confidence_threshold) :
    decideAction confidence_threshold goal analysis similar_experiences =
      { goal := goal, confidence := analysis.confidence.getD (mkRat 1 2),
        strategy := some "cautious",
        actions := generateCautiousActions analysis,
        fallback_actions := generateFallbackActions goal } := by
  unfold decideAction
  simp only [if_neg (not_le.mpr hlt)]

/-! ## C1 -/

/-- C1: DECIDE is a pure, total, exhaustive three-way function of
(confidence, threshold, recalled experiences): with confidence at or
above the threshold and at least one successful recalled experience the
strategy is `proven` with actions extracted from the first successful
experience; with confidence at or above the threshold and no successful
experience it is `exploratory` with actions from the analysis'
recommended-action list; with confidence below the threshold it is
`cautious` with one re-analysis action plus a fallback memory search for
"alternative approaches for {goal}"; no other strategy value is ever
produced. -/
theorem C1_decide_three_way (confidence_threshold : Rat) (goal : String)
    (analysis : Analysis) (similar_experiences : List Experience) :
    ((decideAction confidence_threshold goal analysis similar_experiences).strategy
        = some "proven" ∨
     (decideAction confidence_threshold goal analysis similar_experiences).strategy
        = some "exploratory" ∨
     (decideAction confidence_threshold goal analysis similar_experiences).strategy
        = some "cautious") ∧
    (∀ e rest,
      analysis.confidence.getD (mkRat 1 2) ≥ confidence_threshold →
      similar_experiences.filter (fun exp => exp.success.getD false) = e :: rest →
      decideAction confidence_threshold goal analysis similar_experiences =
        { goal := goal, confidence := analysis.confidence.getD (mkRat 1 2),
          strategy := some "proven", actions := extractActionsFromMemory e,
          fallback_actions := [] }) ∧
    (analysis.confidence.getD (mkRat 1 2) ≥ confidence_threshold →
      similar_experiences.filter (fun exp => exp.success.getD false) = [] →
      decideAction confidence_threshold goal analysis similar_experiences =
        { goal := goal, confidence := analysis.confidence.getD (mkRat 1 2),
          strategy := some "exploratory",
          actions := generateActionsFromAnalysis analysis,
          fallback_actions := [] }) ∧
    (analysis.confidence.getD (mkRat 1 2) < confidence_threshold →
      decideAction confidence_threshold goal analysis similar_experiences =
        { goal := goal, confidence := analysis.confidence.getD (mkRat 1 2),
          strategy := some "cautious",
          actions := ([⟨"vision", "analyze_screen",
            [("prompt",
              PyVal.str "Provide detailed analysis of all interactive elements")]⟩]
            : List ActionSpec),
          fallback_actions := ([⟨"memory", "search",
            [("query", PyVal.str ("alternative approaches for " ++ goal)),
             ("limit", PyVal.int 3)]⟩] : List ActionSpec) }) := by
  refine ⟨?_, ?_, ?_, ?_⟩
  · rcases lt_or_ge (analysis.confidence.getD (mkRat 1 2)) confidence_threshold with hlt | hge
    · exact Or.inr (Or.inr (by rw [decideAction_cautious _ _ _ _ hlt]))
    · rcases h : similar_experiences.filter (fun exp => exp.success.getD false) with
        _ | ⟨e, rest⟩
      · exact Or.inr (Or.inl (by rw [decideAction_exploratory _ _ _ _ hge h]))
      · exact Or.inl (by rw [decideAction_proven _ _ _ _ e rest hge h])
  · intro e rest hge hsucc
    exact decideAction_proven _ _ _ _ e rest hge hsucc
  · intro hge hsucc
    exact decideAction_exploratory _ _ _ _ hge hsucc
  · intro hlt
    exact decideAction_cautious _ _ _ _ hlt

/-- Witness for C1: each of the three branches, evaluated at concrete
inputs (threshold 0.7; confidences 0.9 and 0.3; one successful and one
empty recall list). -/
theorem C1_decide_three_way_witness :
    (decideAction (mkRat 7 10) "open the settings page"
        { confidence := some (mkRat 9 10), recommended_actions := some [] }
        [{ success := some true, id := PyVal.str "mem1" }]).strategy = some "proven" ∧
    (decideAction (mkRat 7 10) "open the settings page"
        { confidence := some (mkRat 9 10), recommended_actions := some [] }
        [{ success := some false, id := PyVal.str "mem1" }]).strategy = some "exploratory" ∧
    (decideAction (mkRat 7 10) "open the settings page"
        { confidence := some (mkRat 3 10), recommended_actions := some [] }
        [{ success := some true, id := PyVal.str "mem1" }]).strategy = some "cautious" := by
  refine ⟨?_, ?_, ?_⟩
  · rw [(C1_decide_three_way (mkRat 7 10) "open the settings page"
        { confidence := some (mkRat 9 10), recommended_actions := some [] }
        [{ success := some true, id := PyVal.str "mem1" }]).2.1
        { success := some true, id := PyVal.str "mem1" } []
        (by decide) (by decide)]
  · rw [(C1_decide_three_way (mkRat 7 10) "open the settings page"
        { confidence := some (mkRat 9 10), recommended_actions := some [] }
        [{ success := some false, id := PyVal.str "mem1" }]).2.2.1
        (by decide) (by decide)]
  · rw [(C1_decide_three_way (mkRat 7 10) "open the settings page"
        { confidence := some (mkRat 3 10), recommended_actions := some [] }
        [{ success := some true, id := PyVal.str "mem1" }]).2.2.2
        (by decide)]

/-! ## C2 and C10: the security gate -/

theorem validateAction_false_of_reject (validator : Validator)
    (params : Params) (name v : String)
    (hmem : (name, PyVal.str v) ∈ params)
    (hrej : (validator v (detectInputType name)).1 = false) :
    (validateAction validator params).1 = false := by
  induction params with
  | nil => cases hmem
  | cons p rest ih =>
      rcases List.mem_cons.mp hmem with heq | htail
      · obtain ⟨n, val⟩ := p
        obtain ⟨h1, h2⟩ := Prod.mk.injEq .. ▸ heq
        subst h1
        cases h2
        simp only [validateAction]
        split
        · next hpass => rw [hrej] at hpass; cases hpass
        · rfl
      · obtain ⟨n, val⟩ := p
        cases val <;> simp only [validateAction] <;> try exact ih htail
        split
        · exact ih htail
        · rfl

theorem validateAction_of_no_str (validator : Validator) (params : Params)
    (h : ∀ p ∈ params, p.2.isStr = false) :
    validateAction validator params = (true, Option.none) := by
  induction params with
  | nil => rfl
  | cons p rest ih =>
      obtain ⟨n, val⟩ := p
      have hrest : ∀ p ∈ rest, PyVal.isStr p.2 = false :=
        fun q hq => h q (List.mem_cons_of_mem _ hq)
      cases val <;> simp only [validateAction] <;> try exact ih hrest
      exact absurd (h _ (List.mem_cons_self ..)) (by simp [PyVal.isStr])

/-- C2: when the security validator rejects some string-valued
parameter, `execute_secure_action` returns `blocked=True`,
`success=False` carrying the rejection reason, and produces no side
effect at all: no recorder mark-start, no dispatch to a domain handler,
no capture, no memory write (the event trace is empty). -/
theorem C2_blocked_call_has_no_side_effects (o : Orchestrator)
    (validator : Validator) (action_type tool_name : String)
    (parameters : Params) (name v : String)
    (hsec : o.security = some validator)
    (hmem : (name, PyVal.str v) ∈ parameters)
    (hrej : (validator v (detectInputType name)).1 = false) :
    (executeSecureAction o action_type tool_name parameters).1.blocked = true ∧
    (executeSecureAction o action_type tool_name parameters).1.success = false ∧
    (executeSecureAction o action_type tool_name parameters).1.error =
      some ("Security validation failed: " ++
        (validateAction validator parameters).2.getD "None") ∧
    (executeSecureAction o action_type tool_name parameters).2 = [] := by
  have hval := validateAction_false_of_reject validator parameters name v hmem hrej
  simp only [executeSecureAction, hsec, hval]
  exact ⟨rfl, rfl, rfl, rfl⟩

/-- A validator that rejects the dangerous command, as the external
security collaborator would (`SecurityValidator.validate_input`). -/
def rmValidator : Validator := fun value _input_type =>
  if value == "rm -rf /" then (false, some "Dangerous command detected")
  else (true, Option.none)

/-- A fully-wired orchestrator (validator present, recording active,
memory present) whose dispatcher would succeed if reached. -/
def wiredOrchestrator : Orchestrator :=
  { security := some rmValidator, recorderAvailable := true, is_recording := true,
    memoryAvailable := true,
    execute := fun _ _ _ => { success := true, error := Option.none } }

/-- Witness for C2: `ExecuteAction("hands","type",{command:"rm -rf /"})`
against a validator that rejects that command returns blocked with no
capture or memory side effects. -/
theorem C2_blocked_call_has_no_side_effects_witness :
    (executeSecureAction wiredOrchestrator "hands" "type"
        [("command", PyVal.str "rm -rf /")]).1.blocked = true ∧
    (executeSecureAction wiredOrchestrator "hands" "type"
        [("command", PyVal.str "rm -rf /")]).1.success = false ∧
    (executeSecureAction wiredOrchestrator "hands" "type"
        [("command", PyVal.str "rm -rf /")]).1.error =
      some ("Security validation failed: " ++
        (validateAction rmValidator
          [("command", PyVal.str "rm -rf /")]).2.getD "None") ∧
    (executeSecureAction wiredOrchestrator "hands" "type"
        [("command", PyVal.str "rm -rf /")]).2 = [] :=
  C2_blocked_call_has_no_side_effects wiredOrchestrator rmValidator "hands" "type"
    [("command", PyVal.str "rm -rf /")] "command" "rm -rf /"
    rfl (List.mem_singleton.mpr rfl) (by decide)

/-- C10: the security gate inspects only top-level string-valued
parameters.  When every parameter value is a non-string (number,
boolean, list or dict — even one containing strings), `_validate_action`
accepts independently of the validator (the validator is never
invoked), the blocked outcome is unreachable, and the call proceeds to
dispatch. -/
theorem C10_nonstring_params_bypass_gate (o : Orchestrator)
    (action_type tool_name : String) (parameters : Params)
    (h : ∀ p ∈ parameters, p.2.isStr = false) :
    (∀ validator : Validator,
        validateAction validator parameters = (true, Option.none)) ∧
    executeSecureAction o action_type tool_name parameters =
      runAction o action_type tool_name parameters ∧
    (executeSecureAction o action_type tool_name parameters).1.blocked = false ∧
    OrchEvent.dispatch action_type tool_name parameters ∈
      (executeSecureAction o action_type tool_name parameters).2 := by
  have hv : ∀ validator : Validator,
      validateAction validator parameters = (true, Option.none) :=
    fun validator => validateAction_of_no_str validator parameters h
  have hrun : executeSecureAction o action_type tool_name parameters =
      runAction o action_type tool_name parameters := by
    cases hsec : o.security with
    | none => simp [executeSecureAction, hsec]
    | some validator => simp [executeSecureAction, hsec, hv validator]
  refine ⟨hv, hrun, ?_, ?_⟩
  · rw [hrun]; rfl
  · rw [hrun]
    unfold runAction
    simp

/-- A validator that rejects every value: even against it, a call whose
parameters are all non-strings goes through to dispatch. -/
def rejectAllValidator : Validator := fun _ _ => (false, some "rejected")

/-- `wiredOrchestrator` with the reject-everything validator. -/
def rejectAllOrchestrator : Orchestrator :=
  { wiredOrchestrator with security := some rejectAllValidator }

/-- Witness for C10: a call with a number, a string-containing list and
a string-containing dict as parameters is never blocked, even by a
validator that rejects everything. -/
theorem C10_nonstring_params_bypass_gate_witness :
    (executeSecureAction rejectAllOrchestrator "browser" "click"
        [("count", PyVal.int 3), ("tags", PyVal.list [PyAtom.str "x"]),
         ("opts", PyVal.dict [("k", PyAtom.str "y")])]).1.blocked = false ∧
    OrchEvent.dispatch "browser" "click"
        [("count", PyVal.int 3), ("tags", PyVal.list [PyAtom.str "x"]),
         ("opts", PyVal.dict [("k", PyAtom.str "y")])] ∈
      (executeSecureAction rejectAllOrchestrator "browser" "click"
        [("count", PyVal.int 3), ("tags", PyVal.list [PyAtom.str "x"]),
         ("opts", PyVal.dict [("k", PyAtom.str "y")])]).2 :=
  ⟨(C10_nonstring_params_bypass_gate rejectAllOrchestrator "browser" "click"
      [("count", PyVal.int 3), ("tags", PyVal.list [PyAtom.str "x"]),
       ("opts", PyVal.dict [("k", PyAtom.str "y")])] (by decide)).2.2.1,
   (C10_nonstring_params_bypass_gate rejectAllOrchestrator "browser" "click"
      [("count", PyVal.int 3), ("tags", PyVal.list [PyAtom.str "x"]),
       ("opts", PyVal.dict [("k", PyAtom.str "y")])] (by decide)).2.2.2⟩

/-! ## C3: action-plan execution

`_execute_action_plan` stops at the first failing primary action and, if
fallback actions exist, appends the fallback outcome to the collected
results — but the `success` flag it returns is never reset when a
fallback succeeds: the plan reports success exactly when every primary
action succeeded. -/

theorem executeFallback_eq_find (exec : ActionSpec → OrchResult)
    (fallback_actions : List ActionSpec) :
    executeFallback exec fallback_actions =
      match fallback_actions.find? (fun a => (exec a).success) with
      | some a => exec a
      | Option.none =>
          { success := false, error := some "All fallback actions failed" } := by
  induction fallback_actions with
  | nil => rfl
  | cons a rest ih =>
      by_cases h : (exec a).success
      · simp [executeFallback, h, List.find?_cons_of_pos]
      · rw [List.find?_cons_of_neg _ (by simp [h])]
        simp [executeFallback, h, ih]

theorem executePlanActions_spec (exec : ActionSpec → OrchResult)
    (fallback_actions : List ActionSpec) (actions : List ActionSpec) :
    executePlanActions exec fallback_actions actions =
      (actions.all fun a => (exec a).success,
       (actions.takeWhile fun a => (exec a).success).map exec ++
         match actions.dropWhile fun a => (exec a).success with
         | [] => []
         | a :: _ => exec a ::
             if fallback_actions.isEmpty then []
             else [executeFallback exec fallback_actions]) := by
  induction actions with
  | nil => rfl
  | cons a rest ih =>
      by_cases h : (exec a).success
      · simp [executePlanActions, h, List.takeWhile_cons, List.dropWhile_cons, ih]
      · by_cases hfb : fallback_actions.isEmpty <;>
          simp [executePlanActions, h, hfb, List.takeWhile_cons, List.dropWhile_cons]

/-- The failing primary action of the C3 counterexample. -/
def c3Primary : ActionSpec := ⟨"browser", "click", [("selector", PyVal.str "#a")]⟩

/-- The succeeding fallback action of the C3 counterexample. -/
def c3Fallback : ActionSpec :=
  ⟨"memory", "search", [("query", PyVal.str "alternative approaches for g")]⟩

/-- An executor under which the primary action fails and the fallback
action succeeds. -/
def c3Exec : ActionSpec → OrchResult := fun a =>
  if a = c3Fallback then { success := true }
  else { success := false, error := some "Element not found" }

/-- A plan with one primary action and one fallback action. -/
def c3Plan : ActionPlan :=
  { goal := "g", confidence := 1/2, strategy := some "cautious",
    actions := [c3Primary], fallback_actions := [c3Fallback] }

/-- Counterexample to C3: the primary action fails, the very first
fallback action succeeds (its result is appended to the collected
results), yet the plan result reports `success=False` — `success` is set
to `False` at the primary failure and never updated after a successful
fallback, contradicting the claim that the plan reports success on the
first successful fallback action. -/
theorem C3_fallback_success_not_reported_counterexample :
    (executeFallback c3Exec c3Plan.fallback_actions).success = true ∧
    (executeActionPlan c3Exec c3Plan).results =
      [{ success := false, error := some "Element not found" },
       { success := true }] ∧
    (executeActionPlan c3Exec c3Plan).success = false := by
  refine ⟨?_, ?_, ?_⟩ <;> decide

/-- C3 amended: EXECUTE runs the primary actions in order and stops at
the first failing action; if fallback actions exist they are then run in
order and the first successful fallback's result (or the all-failed
error) is appended to the collected results; the partial results
collected so far are returned in all cases; but the returned plan
`success` flag is true exactly when every primary action succeeded — a
successful fallback never makes the plan result successful. -/
theorem C3_plan_execution_amended (exec : ActionSpec → OrchResult)
    (plan : ActionPlan) :
    (executeActionPlan exec plan).strategy = plan.strategy ∧
    ((executeActionPlan exec plan).success =
      plan.actions.all fun a => (exec a).success) ∧
    ((executeActionPlan exec plan).results =
      (plan.actions.takeWhile fun a => (exec a).success).map exec ++
        match plan.actions.dropWhile fun a => (exec a).success with
        | [] => []
        | a :: _ => exec a ::
            if plan.fallback_actions.isEmpty then []
            else [executeFallback exec plan.fallback_actions]) ∧
    executeFallback exec plan.fallback_actions =
      (match plan.fallback_actions.find? (fun a => (exec a).success) with
       | some a => exec a
       | Option.none =>
           { success := false, error := some "All fallback actions failed" }) := by
  refine ⟨rfl, ?_, ?_, executeFallback_eq_find exec plan.fallback_actions⟩
  · simp [executeActionPlan,
      executePlanActions_spec exec plan.fallback_actions plan.actions]
  · simp [executeActionPlan,
      executePlanActions_spec exec plan.fallback_actions plan.actions]

/-! ## C9: the autonomous goal loop -/

theorem executeGoalLoop_stop (cycle : Nat → CycleResult)
    (max_iterations iteration : Nat) (history : List CycleResult)
    (h : ¬ iteration < max_iterations) :
    executeGoalLoop cycle max_iterations iteration history =
      { success := false, iterations := iteration, history := history } := by
  rw [executeGoalLoop]
  simp [h]

theorem executeGoalLoop_step (cycle : Nat → CycleResult)
    (max_iterations iteration : Nat) (history : List CycleResult)
    (h : iteration < max_iterations) :
    executeGoalLoop cycle max_iterations iteration history =
      if checkGoalAchievement (cycle (iteration + 1)) then
        { success := true, iterations := iteration + 1,
          history := history ++ [cycle (iteration + 1)] }
      else
        executeGoalLoop cycle max_iterations (iteration + 1)
          (history ++ [cycle (iteration + 1)]) := by
  rw [executeGoalLoop]
  simp [h]

theorem executeGoalLoop_spec (cycle : Nat → CycleResult) (max_iterations : Nat) :
    ∀ (n iteration : Nat) (history : List CycleResult),
      max_iterations ≤ iteration + n → iteration ≤ max_iterations →
      iteration ≤ (executeGoalLoop cycle max_iterations iteration history).iterations ∧
      (executeGoalLoop cycle max_iterations iteration history).iterations
        ≤ max_iterations ∧
      (executeGoalLoop cycle max_iterations iteration history).history =
        history ++ (List.range' (iteration + 1)
          ((executeGoalLoop cycle max_iterations iteration history).iterations
            - iteration)).map cycle ∧
      (∀ k, iteration < k →
        k < (executeGoalLoop cycle max_iterations iteration history).iterations →
        checkGoalAchievement (cycle k) = false) ∧
      ((executeGoalLoop cycle max_iterations iteration history).success = true →
        iteration < (executeGoalLoop cycle max_iterations iteration history).iterations ∧
        checkGoalAchievement
          (cycle (executeGoalLoop cycle max_iterations iteration history).iterations)
          = true) ∧
      ((executeGoalLoop cycle max_iterations iteration history).success = false →
        (executeGoalLoop cycle max_iterations iteration history).iterations
          = max_iterations ∧
        ∀ k, iteration < k → k ≤ max_iterations →
          checkGoalAchievement (cycle k) = false) := by
  intro n
  induction n with
  | zero =>
      intro iteration history h1 h2
      have hstop : ¬ iteration < max_iterations := by omega
      rw [executeGoalLoop_stop cycle max_iterations iteration history hstop]
      dsimp only
      refine ⟨le_refl _, by simpa using h2, by simp, ?_, ?_, ?_⟩
      · intro k hk1 hk2; omega
      · intro hfalse; cases hfalse
      · intro _; exact ⟨by omega, fun k hk1 hk2 => by omega⟩
  | succ n ih =>
      intro iteration history h1 h2
      by_cases h : iteration < max_iterations
      · rw [executeGoalLoop_step cycle max_iterations iteration history h]
        by_cases hc : checkGoalAchievement (cycle (iteration + 1))
        · rw [if_pos hc]
          dsimp only
          refine ⟨by omega, by simpa using h, ?_, ?_, ?_, ?_⟩
          · simp [List.range'_one]
          · intro k hk1 hk2; omega
          · intro _; exact ⟨by omega, by simpa using hc⟩
          · intro hfalse; cases hfalse
        · rw [if_neg hc]
          obtain ⟨ih1, ih2, ih3, ih4, ih5, ih6⟩ :=
            ih (iteration + 1) (history ++ [cycle (iteration + 1)])
              (by omega) (by omega)
          refine ⟨by omega, ih2, ?_, ?_, ?_, ?_⟩
          · rw [ih3]
            have hn : (executeGoalLoop cycle max_iterations (iteration + 1)
                (history ++ [cycle (iteration + 1)])).iterations - iteration =
                ((executeGoalLoop cycle max_iterations (iteration + 1)
                  (history ++ [cycle (iteration + 1)])).iterations
                  - (iteration + 1)) + 1 := by omega
            rw [hn, List.range'_succ, List.map_cons, List.append_assoc]
            rfl
          · intro k hk1 hk2
            rcases Nat.lt_or_ge (iteration + 1) k with hgt | hle
            · exact ih4 k hgt hk2
            · have : k = iteration + 1 := by omega
              subst this
              simpa using hc
          · intro hsucc
            obtain ⟨hlt, hcheck⟩ := ih5 hsucc
            exact ⟨by omega, hcheck⟩
          · intro hfail
            obtain ⟨heq, hall⟩ := ih6 hfail
            refine ⟨heq, fun k hk1 hk2 => ?_⟩
            rcases Nat.lt_or_ge (iteration + 1) k with hgt | hle
            · exact hall k hgt hk2
            · have : k = iteration + 1 := by omega
              subst this
              simpa using hc
      · have hstop := executeGoalLoop_stop cycle max_iterations iteration history h
        rw [hstop]
        dsimp only
        refine ⟨le_refl _, by simpa using h2, by simp, ?_, ?_, ?_⟩
        · intro k hk1 hk2; omega
        · intro hfalse; cases hfalse
        · intro _
          have : iteration = max_iterations := by omega
          exact ⟨this, fun k hk1 hk2 => by omega⟩

/-- C9: `execute_goal_autonomously` runs at most `max_iterations`
strictly sequential cycles; it stops early exactly at the first cycle
whose result has `success=True` and confidence above 0.8 (all earlier
cycles failed the check, the stopping cycle passes it); and on
exhausting `max_iterations` it does not raise (the embedding is a total
function): it returns a goal-not-achieved record with `success=False`,
the full per-iteration history (one entry per executed cycle, in order)
and the iteration count. -/
theorem C9_goal_loop_stops (cycle : Nat → CycleResult) (max_iterations : Nat) :
    (executeGoalAutonomously cycle max_iterations).iterations ≤ max_iterations ∧
    (executeGoalAutonomously cycle max_iterations).history =
      (List.range' 1
        (executeGoalAutonomously cycle max_iterations).iterations).map cycle ∧
    (∀ k, 1 ≤ k →
      k < (executeGoalAutonomously cycle max_iterations).iterations →
      checkGoalAchievement (cycle k) = false) ∧
    ((executeGoalAutonomously cycle max_iterations).success = true →
      1 ≤ (executeGoalAutonomously cycle max_iterations).iterations ∧
      checkGoalAchievement
        (cycle (executeGoalAutonomously cycle max_iterations).iterations) = true) ∧
    ((executeGoalAutonomously cycle max_iterations).success = false →
      (executeGoalAutonomously cycle max_iterations).iterations = max_iterations ∧
      ∀ k, 1 ≤ k → k ≤ max_iterations →
        checkGoalAchievement (cycle k) = false) := by
  obtain ⟨h1, h2, h3, h4, h5, h6⟩ :=
    executeGoalLoop_spec cycle max_iterations max_iterations 0 [] (by omega) (by omega)
  unfold executeGoalAutonomously
  refine ⟨h2, by simpa using h3, fun k hk1 hk2 => h4 k hk1 hk2, ?_, ?_⟩
  · intro hsucc
    obtain ⟨hlt, hcheck⟩ := h5 hsucc
    exact ⟨hlt, hcheck⟩
  · intro hfail
    obtain ⟨heq, hall⟩ := h6 hfail
    exact ⟨heq, fun k hk1 hk2 => hall k hk1 hk2⟩

/-- A cycle function where no iteration ever achieves the goal. -/
def c9NeverCycle : Nat → CycleResult := fun _ =>
  { success := true, confidence := some (mkRat 1 2) }

/-- Witness for C9: with two allowed iterations and a cycle whose results
are successful but stay at confidence 0.5, the loop exhausts both
iterations and reports goal-not-achieved with a two-entry history. -/
theorem C9_goal_loop_stops_witness :
    (executeGoalAutonomously c9NeverCycle 2).iterations = 2 ∧
    checkGoalAchievement (c9NeverCycle 1) = false ∧
    (executeGoalAutonomously c9NeverCycle 2).history =
      (List.range' 1 (executeGoalAutonomously c9NeverCycle 2).iterations).map
        c9NeverCycle := by
  have hc : ∀ k, checkGoalAchievement (c9NeverCycle k) = false := fun _ => rfl
  have hfail : (executeGoalAutonomously c9NeverCycle 2).success = false := by
    cases hb : (executeGoalAutonomously c9NeverCycle 2).success with
    | false => rfl
    | true =>
        have hch := ((C9_goal_loop_stops c9NeverCycle 2).2.2.2.1 hb).2
        rw [hc _] at hch
        cases hch
  exact ⟨((C9_goal_loop_stops c9NeverCycle 2).2.2.2.2 hfail).1, hc 1,
    (C9_goal_loop_stops c9NeverCycle 2).2.1⟩

/-! ## C4 and C5: the recorder -/

/-- The `CapturedAction` record that one `capture_action` call appends,
as a function of the call inputs and the recorder state it reads
(timing dict, screenshot switch, active session id). -/
def capturedActionOf (r : CaptureReq) (w : WorkflowCapture)
    (s : RecordingSession) : CapturedAction :=
  { timestamp := r.now, action_type := r.action_type, tool_name := r.tool_name,
    parameters := r.parameters, result := r.result,
    screenshot_path :=
      if w.capture_screenshots &&
         (r.action_type == "vision" || r.action_type == "browser" ||
          r.action_type == "hands") then
        some (screenshotName s.session_id r)
      else Option.none,
    duration_ms :=
      (w.action_start_times.lookup (r.action_type ++ ":" ++ r.tool_name)).map
        fun t0 => (r.now - t0) * 1000,
    success := r.success, error := r.error }

theorem captureAction_spec (r : CaptureReq) (w : WorkflowCapture)
    (s : RecordingSession)
    (h1 : w.is_recording = true) (h2 : w.current_session = some s) :
    (captureAction r w).2 =
      { w with
        current_session :=
          some { s with actions := s.actions ++ [capturedActionOf r w s] },
        action_start_times :=
          w.action_start_times.filter
            fun p => p.1 ≠ r.action_type ++ ":" ++ r.tool_name } := by
  simp [captureAction, h2, h1, capturedActionOf]

theorem stopRecording_spec (t : Rat) (w : WorkflowCapture) (s : RecordingSession)
    (h1 : w.is_recording = true) (h2 : w.current_session = some s) :
    stopRecording t w =
      (some s.session_id,
       { w with is_recording := false, current_session := Option.none,
                storage := saveSession { s with ended_at := some t } w.storage }) := by
  simp [stopRecording, h2, h1]

theorem runCaptures_spec (reqs : List CaptureReq) :
    ∀ (w : WorkflowCapture) (s : RecordingSession),
      w.is_recording = true → w.current_session = some s →
      (runCaptures reqs w).is_recording = true ∧
      (runCaptures reqs w).storage = w.storage ∧
      ∃ appended : List CapturedAction,
        (runCaptures reqs w).current_session =
          some { s with actions := s.actions ++ appended } ∧
        appended.map (fun a => (a.action_type, a.tool_name, a.parameters)) =
          reqs.map (fun r => (r.action_type, r.tool_name, r.parameters)) := by
  induction reqs with
  | nil =>
      intro w s h1 h2
      refine ⟨h1, rfl, [], ?_, rfl⟩
      show w.current_session = _
      rw [h2]
      cases s
      simp
  | cons r rest ih =>
      intro w s h1 h2
      have hstep := captureAction_spec r w s h1 h2
      have hrun : runCaptures (r :: rest) w = runCaptures rest ((captureAction r w).2) :=
        rfl
      have h1' : ((captureAction r w).2).is_recording = true := by
        rw [hstep]; exact h1
      have h2' : ((captureAction r w).2).current_session =
          some { s with actions := s.actions ++ [capturedActionOf r w s] } := by
        rw [hstep]
      obtain ⟨g1, g2, appended, g4, g5⟩ := ih ((captureAction r w).2) _ h1' h2'
      refine ⟨by rw [hrun]; exact g1, ?_, capturedActionOf r w s :: appended, ?_, ?_⟩
      · rw [hrun, g2, hstep]
      · rw [hrun, g4]
        cases s
        simp
      · simp only [List.map_cons, g5, capturedActionOf]

/-- C4: round-trip.  Start a recording, capture `N` actions, stop;
loading the returned session id yields a session with exactly `N`
actions, in the original capture order, whose action types, tool names
and parameter payloads equal those passed to `capture_action`. -/
theorem C4_record_roundtrip (w0 : WorkflowCapture) (t0 tN : Rat)
    (name : String) (metadata : Params) (reqs : List CaptureReq) :
    ∃ sess : RecordingSession,
      loadSession (startRecording t0 name metadata w0).1
          (stopRecording tN
            (runCaptures reqs (startRecording t0 name metadata w0).2)).2 =
        some sess ∧
      sess.actions.length = reqs.length ∧
      sess.actions.map (fun a => a.parameters) = reqs.map (fun r => r.parameters) ∧
      sess.actions.map (fun a => (a.action_type, a.tool_name)) =
        reqs.map (fun r => (r.action_type, r.tool_name)) := by
  obtain ⟨h1, h2, appended, h4, h5⟩ :=
    runCaptures_spec reqs (startRecording t0 name metadata w0).2
      { session_id := mkSessionId t0 name, name := name, started_at := t0,
        ended_at := Option.none, actions := [], metadata := metadata }
      (by simp [startRecording]) (by simp [startRecording])
  have hlen : appended.length = reqs.length := by
    have := congrArg List.length h5
    simpa using this
  have hparams : appended.map (fun a => a.parameters) =
      reqs.map (fun r => r.parameters) := by
    have := congrArg (List.map fun t : String × String × Params => t.2.2) h5
    simpa [Function.comp_def] using this
  have hnames : appended.map (fun a => (a.action_type, a.tool_name)) =
      reqs.map (fun r => (r.action_type, r.tool_name)) := by
    have := congrArg (List.map fun t : String × String × Params => (t.1, t.2.1)) h5
    simpa [Function.comp_def] using this
  have hid : (startRecording t0 name metadata w0).1 = mkSessionId t0 name := by
    simp [startRecording]
  refine ⟨{ session_id := mkSessionId t0 name, name := name, started_at := t0,
            ended_at := some tN, actions := appended, metadata := metadata },
          ?_, hlen, hparams, hnames⟩
  rw [hid, stopRecording_spec tN _ _ h1 h4]
  simp [loadSession, saveSession]

/-- The single-active-session invariant of `WorkflowCapture`: the
recording flag is set exactly when a current session exists (there is
only one `current_session` slot, so at most one session is ever
active). -/
def RecorderInv (w : WorkflowCapture) : Prop :=
  w.is_recording = true ↔ w.current_session.isSome = true

/-- C5: at most one session is active at any time (the invariant is
preserved by every recorder operation), and calling `start_recording`
while a session is active first finalizes the active session (sets its
`ended_at`) and persists it in full — with all its captured actions —
before creating the new session, so no captured action is lost. -/
theorem C5_start_finalizes_active_session (w : WorkflowCapture)
    (sess : RecordingSession) (t : Rat) (name : String) (metadata : Params)
    (hrec : w.is_recording = true) (hcur : w.current_session = some sess) :
    (startRecording t name metadata w).2.storage.lookup sess.session_id =
      some { session_id := sess.session_id, name := sess.name,
             started_at := sess.started_at, ended_at := some t,
             duration_seconds := some (t - sess.started_at),
             action_count := sess.actions.length, metadata := sess.metadata,
             actions := sess.actions } ∧
    (startRecording t name metadata w).2.current_session =
      some { session_id := mkSessionId t name, name := name, started_at := t,
             ended_at := Option.none, actions := [], metadata := metadata } ∧
    (startRecording t name metadata w).2.is_recording = true ∧
    (∀ (u : WorkflowCapture) (t' : Rat) (n : String) (m : Params),
      RecorderInv (startRecording t' n m u).2) ∧
    (∀ (u : WorkflowCapture) (t' : Rat),
      RecorderInv u → RecorderInv (stopRecording t' u).2) ∧
    (∀ (u : WorkflowCapture) (r : CaptureReq),
      RecorderInv u → RecorderInv (captureAction r u).2) ∧
    (∀ (u : WorkflowCapture) (t' : Rat) (a b : String),
      RecorderInv u → RecorderInv (markActionStart t' a b u)) := by
  have hstop := stopRecording_spec t w sess hrec hcur
  refine ⟨?_, ?_, ?_, ?_, ?_, ?_, ?_⟩
  · simp [startRecording, hrec, hstop, saveSession]
  · simp [startRecording]
  · simp [startRecording]
  · intro u t' n m
    simp [RecorderInv, startRecording]
  · intro u t' hu
    unfold stopRecording
    cases hc : u.current_session with
    | none => simpa [RecorderInv] using hu
    | some s =>
        by_cases hr : u.is_recording
        · simp [hr, RecorderInv]
        · simpa [hr, RecorderInv] using hu
  · intro u r hu
    unfold captureAction
    cases hc : u.current_session with
    | none => simpa [RecorderInv] using hu
    | some s =>
        by_cases hr : u.is_recording
        · simp [hr, RecorderInv]
        · simpa [hr, RecorderInv] using hu
  · intro u t' a b hu
    simpa [RecorderInv, markActionStart] using hu

/-- The one captured action held by the active session of `c5State`. -/
def c5Action : CapturedAction :=
  { timestamp := 2, action_type := "browser", tool_name := "click",
    parameters := [("selector", PyVal.str "#a")], result := Option.none,
    screenshot_path := Option.none, duration_ms := Option.none,
    success := true, error := Option.none }

/-- A recorder state with an active session holding one captured
action. -/
def c5State : WorkflowCapture :=
  { is_recording := true,
    current_session := some
      { session_id := "session_1_old", name := "old", started_at := 1,
        ended_at := Option.none, actions := [c5Action], metadata := [] },
    action_start_times := [], capture_screenshots := true, storage := [] }

/-- Witness for C5: starting a new recording over `c5State` persists the
old session in full (its one captured action survives, `ended_at` is
sealed) before the new session replaces it. -/
theorem C5_start_finalizes_active_session_witness :
    (startRecording 5 "new session" [] c5State).2.storage.lookup "session_1_old" =
      some { session_id := "session_1_old", name := "old", started_at := 1,
             ended_at := some 5, duration_seconds := some (5 - 1),
             action_count := 1, metadata := [], actions := [c5Action] } ∧
    (startRecording 5 "new session" [] c5State).2.is_recording = true :=
  ⟨(C5_start_finalizes_active_session c5State _ 5 "new session" [] rfl rfl).1,
   (C5_start_finalizes_active_session c5State _ 5 "new session" [] rfl rfl).2.2.1⟩

/-! ## C6: loop detection on `[A,B,A,B,A,B]`

`_count_pattern_repeats` counts how many times
`_is_pattern_repeating` holds while advancing block-by-block; a run of
`k` contiguous blocks satisfies that test only at its first `k-1`
blocks (the last block has no successor to compare against), so the
function returns `k-1`, contradicting its own docstring ("Count how
many times pattern repeats") and the spec's example.  Consequently
`_detect_and_optimize_loops` consumes `pattern_length * (k-1)` steps,
emits a loop step with `iterations = k-1`, and lets the final block
fall through as plain steps. -/

/-- Six steps whose action identifiers are `[A,B,A,B,A,B]`
(`A = browser.a`, `B = browser.b`). -/
def c6Steps : List WFStep :=
  [WFStep.act 1 "browser.a" [] Option.none Option.none Option.none,
   WFStep.act 2 "browser.b" [] Option.none Option.none Option.none,
   WFStep.act 3 "browser.a" [] Option.none Option.none Option.none,
   WFStep.act 4 "browser.b" [] Option.none Option.none Option.none,
   WFStep.act 5 "browser.a" [] Option.none Option.none Option.none,
   WFStep.act 6 "browser.b" [] Option.none Option.none Option.none]

/-- C6, evaluated at the failing input: on action identifiers
`[A,B,A,B,A,B]` the code does NOT produce a single loop step with
`iterations=3`; it produces three steps — a loop step with
`iterations=2` and pattern `[A,B]`, followed by the leftover third
block as two plain steps — and the later optimization stage keeps all
three. -/
theorem C6_loop_detection_undercounts :
    (detectAndOptimizeLoops c6Steps).length = 3 ∧
    (detectAndOptimizeLoops c6Steps).map stepActionId =
      ["loop", "browser.a", "browser.b"] ∧
    stepIterations ((detectAndOptimizeLoops c6Steps).getD 0 default) = some 2 ∧
    (stepSubSteps ((detectAndOptimizeLoops c6Steps).getD 0 default)).map
      stepActionId = ["browser.a", "browser.b"] ∧
    (optimizeSteps (detectAndOptimizeLoops c6Steps)).map stepActionId =
      ["loop", "browser.a", "browser.b"] := by
  refine ⟨?_, ?_, ?_, ?_, ?_⟩ <;> decide

/-! ## C7: variable extraction and substitution -/

theorem pyMax_foldl_spec (key : PyVal → Nat) :
    ∀ (rest : List PyVal) (best : PyVal),
      (rest.foldl (fun b x => if key x > key b then x else b) best) ∈ best :: rest ∧
      key best ≤ key (rest.foldl (fun b x => if key x > key b then x else b) best) ∧
      ∀ x ∈ rest,
        key x ≤ key (rest.foldl (fun b x => if key x > key b then x else b) best) := by
  intro rest
  induction rest with
  | nil =>
      intro best
      exact ⟨List.mem_singleton.mpr rfl, le_refl _, by simp⟩
  | cons x rest ih =>
      intro best
      by_cases h : key x > key best
      · obtain ⟨m1, m2, m3⟩ := ih x
        simp only [List.foldl_cons, if_pos h]
        refine ⟨List.mem_cons_of_mem _ m1, le_of_lt (lt_of_lt_of_le h m2), ?_⟩
        intro y hy
        rcases List.mem_cons.mp hy with h' | h'
        · rw [h']; exact m2
        · exact m3 y h'
      · obtain ⟨m1, m2, m3⟩ := ih best
        simp only [List.foldl_cons, if_neg h]
        refine ⟨?_, m2, ?_⟩
        · rcases List.mem_cons.mp m1 with h' | h'
          · rw [h']; exact List.mem_cons_self ..
          · exact List.mem_cons_of_mem _ (List.mem_cons_of_mem _ h')
        · intro y hy
          rcases List.mem_cons.mp hy with h' | h'
          · rw [h']; exact le_trans (le_of_not_lt h) m2
          · exact m3 y h'

theorem pyMax_spec (key : PyVal → Nat) (l : List PyVal) (h : l ≠ []) :
    ∃ m, pyMax key l = some m ∧ m ∈ l ∧ ∀ x ∈ l, key x ≤ key m := by
  match l, h with
  | v :: rest, _ =>
      obtain ⟨m1, m2, m3⟩ := pyMax_foldl_spec key rest v
      refine ⟨_, rfl, m1, ?_⟩
      intro x hx
      rcases List.mem_cons.mp hx with h' | h'
      · rw [h']; exact m2
      · exact m3 x h'

theorem extractVarStep_fold_length (pySet : List PyVal → List PyVal)
    (hne : ∀ l : List PyVal, l ≠ [] → pySet l ≠ []) :
    ∀ (vc : List (String × List PyVal)) (acc : List (String × VarDef) × Nat),
      (vc.foldl (extractVarStep pySet) acc).1.length =
        acc.1.length + vc.countP (fun kv => decide (kv.2.length > 1)) := by
  intro vc
  induction vc with
  | nil => intro acc; simp
  | cons kv rest ih =>
      intro acc
      simp only [List.foldl_cons, List.countP_cons]
      rw [ih]
      by_cases h : kv.2.length > 1
      · have hnil : kv.2 ≠ [] := by
          intro he; rw [he] at h; simp at h
        obtain ⟨m, hm, _, _⟩ :=
          pyMax_spec (fun v => kv.2.count v) (pySet kv.2) (hne _ hnil)
        simp [extractVarStep, h, hm]
        omega
      · simp [extractVarStep, h]

theorem extractVarStep_fold_mem (pySet : List PyVal → List PyVal) :
    ∀ (vc : List (String × List PyVal)) (acc : List (String × VarDef) × Nat)
      (x : String × VarDef), x ∈ (vc.foldl (extractVarStep pySet) acc).1 →
      x ∈ acc.1 ∨ ∃ kv ∈ vc, kv.2.length > 1 ∧
        ∃ m, pyMax (fun v => kv.2.count v) (pySet kv.2) = some m ∧
          x.2.value = m := by
  intro vc
  induction vc with
  | nil => intro acc x hx; exact Or.inl hx
  | cons kv rest ih =>
      intro acc x hx
      rcases ih (extractVarStep pySet acc kv) x hx with
        hacc | ⟨kv', hkv', hlen, m, hm, hv⟩
      · unfold extractVarStep at hacc
        by_cases h : kv.2.length > 1
        · rw [if_pos h] at hacc
          cases hpm : pyMax (fun v => kv.2.count v) (pySet kv.2) with
          | none => rw [hpm] at hacc; exact Or.inl hacc
          | some m =>
              rw [hpm] at hacc
              simp only at hacc
              rcases List.mem_append.mp hacc with h1 | h2
              · exact Or.inl h1
              · refine Or.inr ⟨kv, List.mem_cons_self .., h, m, hpm, ?_⟩
                rw [List.mem_singleton.mp h2]
        · rw [if_neg h] at hacc; exact Or.inl hacc
      · exact Or.inr ⟨kv', List.mem_cons_of_mem _ hkv', hlen, m, hm, hv⟩

theorem substituteVariables_rewrites (params : Params)
    (varList : List (String × VarDef)) :
    (∀ p ∈ params, (∃ v ∈ varList, p.2 = v.2.value) →
      ∃ v ∈ varList, p.2 = v.2.value ∧
        (p.1, PyVal.str ("$\x7b" ++ v.1 ++ "\x7d")) ∈
          substituteVariables params varList) ∧
    (∀ p ∈ params, (∀ v ∈ varList, p.2 ≠ v.2.value) →
      p ∈ substituteVariables params varList) := by
  constructor
  · rintro p hp ⟨v0, hv0, hveq⟩
    have hfind : (varList.find? (fun v => p.2 == v.2.value)).isSome := by
      rw [List.find?_isSome]
      exact ⟨v0, hv0, by simp [hveq]⟩
    obtain ⟨v, hfv⟩ := Option.isSome_iff_exists.mp hfind
    refine ⟨v, List.mem_of_find?_eq_some hfv, ?_, ?_⟩
    · have := List.find?_some hfv
      simpa using this
    · unfold substituteVariables
      rw [List.mem_map]
      exact ⟨p, hp, by rw [hfv]⟩
  · intro p hp hnone
    have hfind : varList.find? (fun v => p.2 == v.2.value) = Option.none := by
      rw [List.find?_eq_none]
      intro v hv
      simpa using hnone v hv
    unfold substituteVariables
    rw [List.mem_map]
    exact ⟨p, hp, by rw [hfind]⟩

/-- First tie action: `browser.type` with `text="x"`. -/
def c7TieA : CapturedAction :=
  { timestamp := 1, action_type := "browser", tool_name := "type",
    parameters := [("text", PyVal.str "x")], result := Option.none,
    screenshot_path := Option.none, duration_ms := Option.none,
    success := true, error := Option.none }

/-- Second tie action: `browser.type` with `text="y"`. -/
def c7TieB : CapturedAction :=
  { timestamp := 2, action_type := "browser", tool_name := "type",
    parameters := [("text", PyVal.str "y")], result := Option.none,
    screenshot_path := Option.none, duration_ms := Option.none,
    success := true, error := Option.none }

/-- Counterexample to C7's tie-break clause.  The group
`browser_type_text` observes `["x","y"]` — two observations, so a
variable is synthesized, and both values are tied at count 1.  The
claimed first-seen tie-break would bind the variable to `"x"`.  But the
code computes `max(set(values), key=values.count)`, and a CPython `set`
iterates in unspecified hash order: under the admissible enumeration
`["y","x"]` of that set, the variable is bound to `"y"`.  Tie-breaking
is therefore set-iteration-order-dependent, not first-seen. -/
theorem C7_tiebreak_counterexample :
    validSetEnum [PyVal.str "x", PyVal.str "y"] [PyVal.str "y", PyVal.str "x"] ∧
    valueCounts [c7TieA, c7TieB] =
      [("browser_type_text", [PyVal.str "x", PyVal.str "y"])] ∧
    extractVariables (fun _ => [PyVal.str "y", PyVal.str "x"]) [c7TieA, c7TieB] =
      [("var_1", { value := PyVal.str "y",
                   description := "Extracted from browser_type_text",
                   type := "str" })] ∧
    PyVal.str "y" ≠ PyVal.str "x" := by
  refine ⟨⟨by decide, ?_⟩, by decide, by decide, by decide⟩
  intro v
  constructor <;> (intro h; simp only [List.mem_cons, List.not_mem_nil, or_false] at h ⊢; tauto)

/-- C7 amended: for every admissible set enumeration, variable
extraction creates exactly one variable per `(actionType, tool,
paramName)` group with more than one observation; each variable is
bound to a value of maximal frequency within its group (WHICH maximal
value wins a tie depends on the unspecified set-iteration order, not on
first-seen order — see the counterexample); and substitution rewrites
every step parameter whose value equals some variable's bound value
into a reference to such a variable, leaving non-matching parameters
unchanged. -/
theorem C7_variable_extraction_amended (pySet : List PyVal → List PyVal)
    (hvalid : ∀ l : List PyVal, validSetEnum l (pySet l))
    (actions : List CapturedAction) (params : Params)
    (varList : List (String × VarDef)) :
    (extractVariables pySet actions).length =
      (valueCounts actions).countP (fun kv => decide (kv.2.length > 1)) ∧
    (∀ x ∈ extractVariables pySet actions, ∃ kv ∈ valueCounts actions,
      kv.2.length > 1 ∧ x.2.value ∈ kv.2 ∧
      ∀ u ∈ kv.2, kv.2.count u ≤ kv.2.count x.2.value) ∧
    (∀ p ∈ params, (∃ v ∈ varList, p.2 = v.2.value) →
      ∃ v ∈ varList, p.2 = v.2.value ∧
        (p.1, PyVal.str ("$\x7b" ++ v.1 ++ "\x7d")) ∈
          substituteVariables params varList) ∧
    (∀ p ∈ params, (∀ v ∈ varList, p.2 ≠ v.2.value) →
      p ∈ substituteVariables params varList) := by
  have hne : ∀ l : List PyVal, l ≠ [] → pySet l ≠ [] := by
    intro l hl he
    match l, hl with
    | v :: rest, _ =>
        have : v ∈ pySet (v :: rest) := ((hvalid (v :: rest)).2 v).mpr
          (List.mem_cons_self ..)
        rw [he] at this
        cases this
  refine ⟨?_, ?_, (substituteVariables_rewrites params varList).1,
    (substituteVariables_rewrites params varList).2⟩
  · have := extractVarStep_fold_length pySet hne (valueCounts actions) ([], 1)
    simpa [extractVariables] using this
  · intro x hx
    rcases extractVarStep_fold_mem pySet (valueCounts actions) ([], 1) x
        (by simpa [extractVariables] using hx) with h0 | ⟨kv, hkv, hlen, m, hm, hv⟩
    · simp at h0
    · have hnil : kv.2 ≠ [] := by
        intro he; rw [he] at hlen; simp at hlen
      obtain ⟨m', hm', hmem', hmax'⟩ :=
        pyMax_spec (fun v => kv.2.count v) (pySet kv.2) (hne _ hnil)
      rw [hm] at hm'
      cases hm'
      refine ⟨kv, hkv, hlen, ?_, ?_⟩
      · rw [hv]; exact ((hvalid kv.2).2 m).mp hmem'
      · intro u hu
        rw [hv]
        exact hmax' u (((hvalid kv.2).2 u).mpr hu)

/-- One of three identical `browser.type text="foo"` actions. -/
def c7Foo (t : Rat) : CapturedAction :=
  { timestamp := t, action_type := "browser", tool_name := "type",
    parameters := [("text", PyVal.str "foo")], result := Option.none,
    screenshot_path := Option.none, duration_ms := Option.none,
    success := true, error := Option.none }

/-- The three-action session of the C7 example. -/
def c7FooActions : List CapturedAction := [c7Foo 1, c7Foo 2, c7Foo 3]

/-- Witness for C7 (amended), at the spec's example: three actions
sharing `(type,tool,param) = "foo"` yield exactly one synthesized
variable, and all three generated steps reference it.
`List.dedup` plays the set enumeration (it lists the distinct observed
values exactly once, hence is admissible). -/
theorem C7_variable_extraction_amended_witness :
    (extractVariables List.dedup c7FooActions).length =
      (valueCounts c7FooActions).countP (fun kv => decide (kv.2.length > 1)) ∧
    extractVariables List.dedup c7FooActions =
      [("var_1", { value := PyVal.str "foo",
                   description := "Extracted from browser_type_text",
                   type := "str" })] ∧
    (convertActionsToSteps c7FooActions
        (extractVariables List.dedup c7FooActions)).map stepParams =
      [some [("text", PyVal.str "$\x7bvar_1\x7d")],
       some [("text", PyVal.str "$\x7bvar_1\x7d")],
       some [("text", PyVal.str "$\x7bvar_1\x7d")]] :=
  ⟨(C7_variable_extraction_amended List.dedup
      (fun l => ⟨l.nodup_dedup, fun v => l.mem_dedup⟩)
      c7FooActions [] []).1,
   by decide, by decide⟩

/-! ## C8: failed actions in the generated workflow -/

/-- A successful `browser.click` with empty parameters. -/
def c8Success : CapturedAction :=
  { timestamp := 1, action_type := "browser", tool_name := "click",
    parameters := [], result := Option.none, screenshot_path := Option.none,
    duration_ms := Option.none, success := true, error := Option.none }

/-- A failed `browser.click` with the same (empty) parameters. -/
def c8Failed : CapturedAction :=
  { timestamp := 2, action_type := "browser", tool_name := "click",
    parameters := [], result := Option.none, screenshot_path := Option.none,
    duration_ms := Option.none, success := false,
    error := some "Element not found" }

/-- Counterexample to C8: a failed captured action IS dropped by a later
stage.  Step conversion does emit an explicit `on_error='continue'` step
for the failed `browser.click`, but `_is_redundant` compares only the
action identifier and the substituted parameters — not the failure
policy — so adjacency deduplication silently removes the failed step:
the generated workflow has a single step and no `continue` step at
all. -/
theorem C8_failed_step_dropped_counterexample :
    c8Failed.success = false ∧
    (convertActionsToSteps [c8Success, c8Failed]
        (extractVariables List.dedup [c8Success, c8Failed])).map stepOnError =
      [Option.none, some "continue"] ∧
    (generateWorkflowSteps List.dedup [c8Success, c8Failed]).2.length = 1 ∧
    ∀ s ∈ (generateWorkflowSteps List.dedup [c8Success, c8Failed]).2,
      stepOnError s ≠ some "continue" := by
  refine ⟨by decide, by decide, by decide, by decide⟩

/-- C8 amended: after the step-conversion stage, every captured action
appears as an explicit step at its original position, and the step of
every failed action carries the `continue` on-error policy; the later
stages do NOT preserve this (see the counterexample): loop folding
keeps only the first block of a repeated region, and adjacency
deduplication drops a step whose identifier and substituted parameters
equal its retained predecessor's, even when that step carries the
failure policy. -/
theorem C8_failed_actions_explicit_after_conversion
    (actions : List CapturedAction) (varList : List (String × VarDef)) :
    (convertActionsToSteps actions varList).length = actions.length ∧
    ∀ i, i < actions.length →
      ∃ a, actions[i]? = some a ∧
        stepOnError ((convertActionsToSteps actions varList).getD i default) =
          (if a.success then Option.none else some "continue") ∧
        stepActionId ((convertActionsToSteps actions varList).getD i default) =
          a.action_type ++ "." ++ a.tool_name := by
  constructor
  · simp [convertActionsToSteps]
  · intro i hi
    have ha : actions[i]? = some (actions.get ⟨i, hi⟩) := by
      simp [List.getElem?_eq_getElem hi]
    refine ⟨actions.get ⟨i, hi⟩, ha, ?_, ?_⟩ <;>
      simp [convertActionsToSteps, List.getD_eq_getElem?_getD,
        List.getElem?_map, List.getElem?_enumFrom, ha, stepOnError, stepActionId]

/-- Witness for C8 (amended): in the two-action session of the
counterexample, the failed action's converted step (position 1) is
explicit and carries `on_error='continue'`. -/
theorem C8_failed_actions_explicit_after_conversion_witness :
    (∃ a, [c8Success, c8Failed][1]? = some a ∧
      stepOnError ((convertActionsToSteps [c8Success, c8Failed] []).getD 1 default) =
        (if a.success then Option.none else some "continue") ∧
      stepActionId ((convertActionsToSteps [c8Success, c8Failed] []).getD 1 default) =
        a.action_type ++ "." ++ a.tool_name) ∧
    stepOnError ((convertActionsToSteps [c8Success, c8Failed] []).getD 1 default) =
      some "continue" :=
  ⟨(C8_failed_actions_explicit_after_conversion [c8Success, c8Failed] []).2 1
      (by decide),
   by decide⟩
